import Mathlib

/-!
Verification development for the picto-cache media-sharing backend.

The Go source (backend/serve.go, backend/store.go) is shallowly embedded:
HTTP handlers become pure functions over explicit request and store state,
SQL calls become list operations over the metadata tables, and the file
system becomes an explicit blob map.  External libraries (Go stdlib
content sniffing, the JWT library, bcrypt) are modelled at their
documented interfaces.
-/

namespace Picto

/-! ## Basic Go string helpers -/

/-- Accumulates decimal digits; fails on any non-digit character. -/
def parseDigitsAux : Nat → List Char → Option Nat
  | acc, [] => some acc
  | acc, c :: cs =>
      if c.isDigit then parseDigitsAux (acc * 10 + (c.toNat - 48)) cs else none

/-- Parses a nonempty all-digit string. -/
def parseDigits : List Char → Option Nat
  | [] => none
  | cs => parseDigitsAux 0 cs

/-- Model of Go strconv.Atoi (ignoring the int-overflow failure mode):
optional sign followed by at least one digit, anything else is an error. -/
def goAtoi (s : String) : Option Int :=
  match s.toList with
  | '-' :: cs => (parseDigits cs).map (fun n => -(n : Int))
  | '+' :: cs => (parseDigits cs).map (fun n => (n : Int))
  | cs => (parseDigits cs).map (fun n => (n : Int))

/-- Does the second list start with the first? -/
def listStartsWith : List Nat → List Nat → Bool
  | [], _ => true
  | _ :: _, [] => false
  | a :: as, b :: bs => a = b && listStartsWith as bs

/-- Does the second character list start with the first? -/
def charsStartWith : List Char → List Char → Bool
  | [], _ => true
  | _ :: _, [] => false
  | a :: as, b :: bs => a = b && charsStartWith as bs

/-- Model of Go strings.Contains on character lists. -/
def charsContain : List Char → List Char → Bool
  | hay, needle =>
    if charsStartWith needle hay then true
    else
      match hay with
      | [] => false
      | _ :: t => charsContain t needle

/-- Model of Go strings.Contains. -/
def goContains (hay needle : String) : Bool :=
  charsContain hay.toList needle.toList

/-- Characters before the first dot: Go strings.Split(s, ".")[0]. -/
def takeBeforeDot : List Char → List Char
  | [] => []
  | c :: cs => if c = '.' then [] else c :: takeBeforeDot cs

/-- Go strings.Split(s, ".")[0]. -/
def beforeFirstDot (s : String) : String :=
  String.mk (takeBeforeDot s.toList)

/-- Characters before the last dot (the whole list when no dot occurs):
Go strings.TrimSuffix(s, filepath.Ext(s)). -/
def dropExtChars : List Char → List Char
  | [] => []
  | c :: cs =>
      if cs.contains '.' then c :: dropExtChars cs
      else if c = '.' then [] else c :: dropExtChars cs

/-- Go strings.TrimSuffix(s, filepath.Ext(s)). -/
def trimExt (s : String) : String :=
  String.mk (dropExtChars s.toList)

/-- Characters after the first slash. -/
def dropThroughSlash : List Char → List Char
  | [] => []
  | c :: cs => if c = '/' then cs else dropThroughSlash cs

/-- Characters before the next slash. -/
def takeUntilSlash : List Char → List Char
  | [] => []
  | c :: cs => if c = '/' then [] else c :: takeUntilSlash cs

/-- Go strings.Split(s, "/")[1]: the segment between the first and second
slash (empty when the string holds no slash, a case unreachable for the
MIME strings this server produces). -/
def goSplitSecond (s : String) : String :=
  String.mk (takeUntilSlash (dropThroughSlash s.toList))

/-! ## Data model (backend/serve.go struct declarations) -/

/-- Image metadata row (serve.go `type Image`). -/
structure Image where
  id : Int
  uid : Int
  title : String
  ref : String
  size : Int
  encoding : String
  shareable : Bool
deriving Repr, DecidableEq

/-- User metadata row (serve.go `type User`). -/
structure User where
  uid : Int
  firstname : String
  lastname : String
  email : String
deriving Repr, DecidableEq

/-- Hashed-credential row (serve.go `type UserPassword`). -/
structure UserPassword where
  uid : Int
  hashedPass : String
deriving Repr, DecidableEq

/-- Claims carried by a JWT (serve.go `type JWTClaims`). -/
structure JWTClaims where
  email : String
  uid : Int
  expiresAt : Int
deriving Repr, DecidableEq

/-! ## TokenService (serve.go generateJWT / authRequest) -/

/-- A token string as seen on the wire.  A well-formed token records the
claims it was signed over together with the key that signed it; `malformed`
stands for any string that does not parse as a JWT at all. -/
inductive TokenStr where
  | signed (email : String) (uid : Int) (expiresAt : Int) (key : String)
  | malformed (s : String)
deriving Repr, DecidableEq

/-- serve.go generateJWT: builds claims whose expiry is 30 minutes after
the current time, signs them with the server key, and returns the token
together with the expiry epoch. -/
def generateJWT (uid : Int) (email : String) (now : Int) (key : String) :
    TokenStr × Int :=
  (TokenStr.signed email uid (now + 30 * 60) key, now + 30 * 60)

/-- Modelled from the spec: jwt.ParseWithClaims (external JWT library)
"verifies signature and structural validity; expired or malformed tokens
both yield AuthError".  A signed token is accepted exactly when it was
signed with the server key and its expiry has not passed. -/
def parseToken (t : TokenStr) (serverKey : String) (now : Int) :
    Except String JWTClaims :=
  match t with
  | .malformed _ => .error "failed to parse jwt/invalid token, unauthorized"
  | .signed email uid exp key =>
      if key = serverKey ∧ now ≤ exp then .ok ⟨email, uid, exp⟩
      else .error "failed to parse jwt/invalid token, unauthorized"

/-- serve.go authRequest: the token string is taken from the cookie named
`token` when such a cookie exists, otherwise from the Authorization header
(with the `Bearer ` prefix trimmed); the chosen string is then parsed and
verified. -/
def authRequest (cookies : List (String × TokenStr)) (authHeader : TokenStr)
    (serverKey : String) (now : Int) : Except String JWTClaims :=
  let tokenStr :=
    match cookies.find? (fun c => c.1 = "token") with
    | some c => c.2
    | none => authHeader
  parseToken tokenStr serverKey now

/-! ## QueryEngine (store.go ImageMetaQuery) -/

/-- URL query parameters.  Go url.Values is a map from key to a list of
values (keys unique); represented as an association list. -/
abbrev Params := List (String × List String)

/-- url.Values.Has. -/
def Params.has (p : Params) (k : String) : Bool :=
  p.any (fun x => x.1 = k)

/-- url.Values.Get: first value for the key, or "" when absent/empty. -/
def Params.get (p : Params) (k : String) : String :=
  match p.find? (fun x => x.1 = k) with
  | some (_, v :: _) => v
  | _ => ""

/-- One SQL condition string appended to `conditions` in
store.go ImageMetaQuery, represented symbolically: `idEq v` is
`id='v'`, `uidEq v` is `uid='v'`, `titleEq v` is `title='v'`,
`shareableEq v` is `shareable='v'`, `encodingEq v` is `encoding='v'`,
`perm u` is the mandatory clause `(uid=u OR shareable=true)` and
`ownerOnly u` is the no-filter special case `uid=u`. -/
inductive Cond where
  | idEq (v : String)
  | uidEq (v : String)
  | titleEq (v : String)
  | shareableEq (v : String)
  | encodingEq (v : String)
  | perm (uid : Int)
  | ownerOnly (uid : Int)
deriving Repr, DecidableEq

/-- store.go ImageMetaQuery, query-building phase: one condition per
supplied recognized parameter, in source order, then the mandatory
permission clause; when the parameter set is empty or is exactly the page
parameter, the whole query is replaced by `uid=<caller>`. -/
def imageMetaConds (uid : Int) (params : Params) : List Cond :=
  let conditions : List Cond := []
  let conditions :=
    if params.has "id" then conditions ++ [Cond.idEq (params.get "id")] else conditions
  let conditions :=
    if params.has "uid" then conditions ++ [Cond.uidEq (params.get "uid")] else conditions
  let conditions :=
    if params.has "title" then conditions ++ [Cond.titleEq (params.get "title")] else conditions
  let conditions :=
    if params.has "shareable" then conditions ++ [Cond.shareableEq (params.get "shareable")] else conditions
  let conditions :=
    if params.has "encoding" then conditions ++ [Cond.encodingEq (params.get "encoding")] else conditions
  let conditions := conditions ++ [Cond.perm uid]
  if params.length = 0 ∨ (params.length = 1 ∧ params.has "page") then
    [Cond.ownerOnly uid]
  else
    conditions

/-- SQL boolean literal, for the two values this server ever emits. -/
def sqlBoolLit (v : String) : Option Bool :=
  if v = "true" then some true else if v = "false" then some false else none

/-- Evaluation of one SQL condition against an image_meta row. -/
def evalCond (c : Cond) (row : Image) : Bool :=
  match c with
  | .idEq v => goAtoi v = some row.id
  | .uidEq v => goAtoi v = some row.uid
  | .titleEq v => row.title = v
  | .shareableEq v => sqlBoolLit v = some row.shareable
  | .encodingEq v => row.encoding = v
  | .perm uid => row.uid = uid || row.shareable
  | .ownerOnly uid => row.uid = uid

/-- Conjunction (SQL AND) of a condition list. -/
def evalConds (cs : List Cond) (row : Image) : Bool :=
  cs.all (fun c => evalCond c row)

/-- The claim-side "conjunction of all supplied filters" over
{record id, owner id, title, encoding, shareable}. -/
def suppliedFilterConds (params : Params) : List Cond :=
  (if params.has "id" then [Cond.idEq (params.get "id")] else []) ++
  (if params.has "uid" then [Cond.uidEq (params.get "uid")] else []) ++
  (if params.has "title" then [Cond.titleEq (params.get "title")] else []) ++
  (if params.has "shareable" then [Cond.shareableEq (params.get "shareable")] else []) ++
  (if params.has "encoding" then [Cond.encodingEq (params.get "encoding")] else [])

/-- Does the query supply at least one recognized filter parameter? -/
def hasAnyFilter (params : Params) : Bool :=
  params.has "id" || params.has "uid" || params.has "title" ||
  params.has "shareable" || params.has "encoding"

/-- store.go PAGE_SIZE. -/
def PAGE_SIZE : Nat := 50

/-- Paginated response (serve.go `type QueryResp`). -/
structure QueryResp where
  page : Int
  pageSize : Nat
  totalResults : Nat
  imageMeta : List Image
deriving Repr, DecidableEq

/-- store.go ImageMetaQuery page parse: strconv.Atoi of the page
parameter, defaulting to 0 on any parse error. -/
def pageOf (params : Params) : Int :=
  match goAtoi (params.get "page") with
  | some n => n
  | none => 0

/-- `SELECT ... LIMIT limit OFFSET offset` over the rows matching the
predicate, in table order; a negative OFFSET is a SQL error, surfaced
through the query's error return. -/
def selectLimitOffset (rows : List Image) (limit : Nat) (offset : Int) :
    Except String (List Image) :=
  if offset < 0 then .error "unable to retrieve metadata: OFFSET must not be negative"
  else .ok ((rows.drop offset.toNat).take limit)

/-- store.go ImageMetaQuery: builds the predicate, counts all matching
rows (unpaginated) for totalResults, then selects the page slice with
LIMIT PAGE_SIZE OFFSET page*PAGE_SIZE. -/
def imageMetaQuery (uid : Int) (params : Params) (table : List Image) :
    Except String QueryResp :=
  let page := pageOf params
  let conds := imageMetaConds uid params
  let matching := table.filter (evalConds conds)
  let totalResp := matching.length
  match selectLimitOffset matching PAGE_SIZE (page * (PAGE_SIZE : Int)) with
  | .error e => .error e
  | .ok images =>
      .ok { page := page, pageSize := PAGE_SIZE,
            totalResults := totalResp, imageMeta := images }

/-! ## CredentialStore (store.go GetHashedPass, serve.go auth) -/

/-- Outcome of a Go call: a normal return, an error return, or a runtime
panic (such as indexing an empty slice). -/
inductive GoResult (α : Type) where
  | ok (a : α)
  | err (msg : String)
  | panic (msg : String)
deriving Repr, DecidableEq

/-- store.go GetHashedPass.  The second length guard re-examines
`userRows` instead of `passRows`, exactly as the source does: when the
credential row is missing the guard cannot fire and `passRows[0]` is an
out-of-range index (a runtime panic); when several credential rows exist
the first one is returned without any error. -/
def GetHashedPass (email : String) (users : List User)
    (passes : List UserPassword) : GoResult (String × User) :=
  let userRows := users.filter (fun u => u.email = email)
  if userRows.length ≠ 1 then .err "cannot find email"
  else
    match userRows with
    | [] => .panic "runtime error: index out of range [0] with length 0"
    | user :: _ =>
        let passRows := passes.filter (fun p => p.uid = user.uid)
        if userRows.length ≠ 1 then .err "cannot find hashed pass"
        else
          match passRows with
          | [] => .panic "runtime error: index out of range [0] with length 0"
          | pass :: _ => .ok (pass.hashedPass, user)

/-- Modelled from the spec: bcrypt digest creation, "a slow, adaptive,
salted hash (bcrypt-class algorithm)".  The digest is abstracted as an
injective tagging of the plaintext. -/
def bcryptHash (plaintext : String) : String :=
  "bcrypt$" ++ plaintext

/-- Modelled from the spec: bcrypt.CompareHashAndPassword returns a nil
error exactly when the digest matches the supplied plaintext. -/
def bcryptCompare (hashed password : String) : Bool :=
  hashed = bcryptHash password

/-- Externally visible outcome of the /auth handler: a status/body
response, a successful token issuance, or a crash of the handler (a Go
panic escaping it). -/
inductive AuthResp where
  | resp (status : Nat) (body : String)
  | tokenOk (token : TokenStr) (exp : Int)
  | crashed (msg : String)
deriving Repr, DecidableEq

/-- serve.go auth: looks up the stored digest for the basic-auth email,
compares it against the supplied password, and on success issues a JWT;
lookup failure and comparison failure each return 401 with the source's
respective body strings. -/
def authHandler (email password : String) (users : List User)
    (passes : List UserPassword) (now : Int) (key : String) : AuthResp :=
  match GetHashedPass email users passes with
  | .panic m => .crashed m
  | .err _ => .resp 401 "401 - Unauthorized, unable to verify this login attempt"
  | .ok (hashedPass, user) =>
      if bcryptCompare hashedPass password then
        let issued := generateJWT user.uid user.email now key
        .tokenOk issued.1 issued.2
      else
        .resp 401 "401 - Unauthorized, invalid login"

/-! ## IngestionCoordinator (serve.go addImage) -/

/-- serve.go IMAGE_DIR. -/
def IMAGE_DIR : String := "image"

/-- PNG file signature. -/
def pngSig : List Nat := [0x89, 0x50, 0x4E, 0x47, 0x0D, 0x0A, 0x1A, 0x0A]

/-- JPEG file signature. -/
def jpegSig : List Nat := [0xFF, 0xD8, 0xFF]

/-- Modelled from the spec: Go http.DetectContentType (external stdlib),
which classifies a byte prefix by content signatures; restricted to the
signatures this server distinguishes — PNG, JPEG, and the
application/octet-stream fallback for everything else. -/
def detectContentType (buffer : List Nat) : String :=
  if listStartsWith pngSig buffer then "image/png"
  else if listStartsWith jpegSig buffer then "image/jpeg"
  else "application/octet-stream"

/-- The 512-byte sniff buffer of serve.go addImage: the first (at most)
512 bytes of the stream, zero-padded to 512 as `make([]byte, 512)`
leaves unread positions zero. -/
def sniffBuffer (bytes : List Nat) : List Nat :=
  bytes.take 512 ++ List.replicate (512 - min 512 bytes.length) 0

/-- Multipart upload request as seen by serve.go addImage after
authentication: declared Content-Type header, the form file's declared
filename, the optional title and shareable form fields (empty string when
absent), and the raw bytes of the file part. -/
structure UploadReq where
  contentType : String
  filename : String
  titleField : String
  shareableField : String
  bytes : List Nat
deriving Repr, DecidableEq

/-- Server-side state touched by the handlers: the image_meta table with
its next store-assigned id, and the blob store as a map from
(owner directory, file name) to byte contents. -/
structure ServerState where
  nextId : Int
  rows : List Image
  blobs : List ((String × String) × List Nat)
deriving Repr, DecidableEq

/-- Outcomes of the fallible external calls made during one upload,
driving the compensation logic: whether the metadata insert, the
reference update, the blob create, and the blob copy succeed. -/
structure UploadIOOutcome where
  insertOk : Bool
  updateOk : Bool
  createOk : Bool
  copyOk : Bool
deriving Repr, DecidableEq

/-- Externally visible outcome of the POST /image handler: a status/body
response or a successful upload returning the stored record. -/
inductive AddImageResp where
  | resp (status : Nat) (body : String)
  | ok (img : Image)
deriving Repr, DecidableEq

/-- serve.go addImage title normalization: the title form field (or, when
empty, the declared filename) truncated at its first dot, with the
extension derived from the detected type appended. -/
def uploadTitle (req : UploadReq) (fileExt : String) : String :=
  beforeFirstDot (if req.titleField.length = 0 then req.filename else req.titleField) ++
    "." ++ fileExt

/-- serve.go addImage after authentication: sniffs the first 512 bytes to
classify the content type, rejects anything but image/jpeg and image/png,
normalizes the title extension from the detected type, inserts the
metadata row to obtain the store-assigned id, updates the row with the
derived reference, creates the blob file and copies the stream into it —
deleting the just-inserted row whenever the update, create, or copy step
fails. -/
def addImage (uid : Int) (req : UploadReq) (st : ServerState)
    (io : UploadIOOutcome) (refUrl : String) : AddImageResp × ServerState :=
  if req.bytes.length = 0 then
    (.resp 500 "400 - Failed to validate file type, ensure the file is correctly formatted as a jpeg (jpg) or png", st)
  else
    let fileType := detectContentType (sniffBuffer req.bytes)
    if ¬ (goContains req.contentType "multipart/form-data" ∧
          (fileType = "image/jpeg" ∨ fileType = "image/png")) then
      (.resp 400 "400 - Failed to upload, please use multipart form data with an image of type jpeg (jpg) or png", st)
    else
      let fileExt := goSplitSecond fileType
      let shareable := req.shareableField = "true"
      let title := uploadTitle req fileExt
      let imageData : Image :=
        { id := 0, uid := uid, title := title, ref := "",
          size := req.bytes.length, encoding := fileType, shareable := shareable }
      if ¬ io.insertOk then
        (.resp 500 "500 - Failed to add image meta, try again later", st)
      else
        let id := st.nextId
        let imageData := { imageData with id := id }
        let st1 : ServerState :=
          { st with nextId := st.nextId + 1, rows := st.rows ++ [imageData] }
        let ref := refUrl ++ "/" ++ IMAGE_DIR ++ "/" ++ toString uid ++ "/" ++
          toString id ++ "." ++ fileExt
        let imageData := { imageData with ref := ref }
        if ¬ io.updateOk then
          (.resp 500 "500 - Failed to update file referece in database, try again later",
           { st1 with rows := st1.rows.filter (fun r : Image => r.id ≠ id) })
        else
          let st2 :=
            { st1 with rows := st1.rows.map (fun r : Image => if r.id = id then imageData else r) }
          let dirName := toString uid
          let fileName := toString id ++ "." ++ fileExt
          if ¬ io.createOk then
            (.resp 500 "500 - Failed to create file reference, try again later",
             { st2 with rows := st2.rows.filter (fun r : Image => r.id ≠ id) })
          else
            let st3 :=
              { st2 with blobs :=
                  st2.blobs.filter (fun b : (String × String) × List Nat => b.1 ≠ (dirName, fileName)) ++
                    [((dirName, fileName), [])] }
            if ¬ io.copyOk then
              (.resp 500 "500 - Failed to save file reference, try again later",
               { st3 with rows := st3.rows.filter (fun r : Image => r.id ≠ id) })
            else
              let st4 :=
                { st3 with blobs :=
                    st3.blobs.filter (fun b : (String × String) × List Nat => b.1 ≠ (dirName, fileName)) ++
                      [((dirName, fileName), req.bytes)] }
              (.ok imageData, st4)

/-! ## Image access (serve.go validateVars / getImage / updateImage) -/

/-- serve.go validateVars: requires both url parameters, parses the
numeric record id out of the fileId segment with its extension trimmed,
and fetches the metadata row with that id (store.go GetImageMeta, whose
row-count-not-one branch is the "404 - Not found" error). -/
def validateVars (uidVar fileIdVar : String) (rows : List Image) :
    Except String Image :=
  if uidVar.length = 0 ∨ fileIdVar.length = 0 then
    .error "incomplete image request, null parameters"
  else
    match goAtoi (trimExt fileIdVar) with
    | none => .error "unable to parse file id"
    | some id =>
        match rows.filter (fun r : Image => r.id = id) with
        | [row] => .ok row
        | _ => .error "404 - Not found"

/-- Externally visible outcome of the GET /image/{uid}/{fileId} handler:
a status/body response or the blob bytes with their Content-Type. -/
inductive GetImageResp where
  | resp (status : Nat) (body : String)
  | ok (contentType : String) (bytes : List Nat)
deriving Repr, DecidableEq

/-- serve.go getImage after authentication: resolves the record, denies
every caller whose uid differs from the record owner (the shareable flag
is not consulted), then serves the blob at image/{uid}/{fileId} with the
stored encoding as Content-Type; a failed file read is the 500 branch. -/
def getImage (claimsUid : Int) (uidVar fileIdVar : String)
    (st : ServerState) : GetImageResp :=
  match validateVars uidVar fileIdVar st.rows with
  | .error e =>
      if goContains e "404 - Not found" then
        .resp 404 "404 - Not found, no image with that information available"
      else
        .resp 400 "400 - Bad request unable to parse url parameters"
  | .ok imageMeta =>
      if claimsUid ≠ imageMeta.uid then
        .resp 401 "401 - Unauthorized, this file is private and you do not have access"
      else
        match st.blobs.find? (fun b => b.1 = (uidVar, fileIdVar)) with
        | none => .resp 500 "500 - Failed to retrieve file, try again later"
        | some b => .ok imageMeta.encoding b.2

/-- The spec's AccessPolicy read decision, stated in its own words:
canRead(callerId, record) = (callerId == record.owner) OR record.shareable. -/
def canRead (callerId : Int) (record : Image) : Bool :=
  callerId = record.uid || record.shareable

/-- Go map lookup over the decoded JSON body of a PUT /image request. -/
def jsonLookup (m : List (String × String)) (k : String) : Option String :=
  (m.find? (fun x => x.1 = k)).map (fun x => x.2)

/-- serve.go updateImage, mutation phase: a supplied nonempty title is
normalized to the extension of the stored encoding; the shareable flag
changes only on the exact strings "true" and "false"; everything else is
left untouched. -/
def applyUpdateParams (imageMeta : Image) (newParams : List (String × String)) :
    Image :=
  let meta1 :=
    match jsonLookup newParams "title" with
    | some title =>
        if title.length > 0 then
          let fileExt := goSplitSecond imageMeta.encoding
          { imageMeta with title := beforeFirstDot title ++ "." ++ fileExt }
        else imageMeta
    | none => imageMeta
  match jsonLookup newParams "shareable" with
  | some s =>
      if s = "true" then { meta1 with shareable := true }
      else if s = "false" then { meta1 with shareable := false }
      else meta1
  | none => meta1

/-! ## Concrete fixtures -/

/-- A shareable record owned by user 1. -/
def ownerRow : Image :=
  { id := 1, uid := 1, title := "t.png", ref := "localhost:8000/image/1/1.png",
    size := 2, encoding := "image/png", shareable := true }

/-- Server state holding just `ownerRow` and its stored bytes. -/
def oneImageState : ServerState :=
  { nextId := 2, rows := [ownerRow], blobs := [(("1", "1.png"), [3, 4])] }

/-- A registered account. -/
def aliceUser : User :=
  { uid := 1, firstname := "A", lastname := "L", email := "a@x.com" }

/-- The user table holding just `aliceUser`. -/
def authUsers : List User := [aliceUser]

/-- The credential table holding `aliceUser`'s digest for password "pw". -/
def authPasses : List UserPassword :=
  [{ uid := 1, hashedPass := bcryptHash "pw" }]

/-! ## Theorems -/

/-- C1: the claim says a read succeeds exactly when the caller owns the
record or the record is shareable.  The code's getImage never consults
the shareable flag: the authenticated non-owner (uid 2) read of the
shareable record owned by uid 1 is answered 401, while the owner's read
returns the stored bytes — the read permission is ownership alone. -/
theorem getImage_denies_shareable_nonowner :
    canRead 2 ownerRow = true ∧
    getImage 2 "1" "1.png" oneImageState =
      GetImageResp.resp 401
        "401 - Unauthorized, this file is private and you do not have access" ∧
    getImage 1 "1" "1.png" oneImageState = GetImageResp.ok "image/png" [3, 4] := by
  decide

/-- C3: when the email resolves to one account but the credential lookup
returns no row, GetHashedPass panics on `passRows[0]` instead of taking
the "cannot find hashed pass" error branch (its guard re-checks userRows);
when the lookup returns two rows it silently uses the first. -/
theorem getHashedPass_missing_credential_panics :
    GetHashedPass "a@x.com" [aliceUser] [] =
      GoResult.panic "runtime error: index out of range [0] with length 0" ∧
    GetHashedPass "a@x.com" [aliceUser]
        [{ uid := 1, hashedPass := "h1" }, { uid := 1, hashedPass := "h2" }] =
      GoResult.ok ("h1", aliceUser) := by
  decide

/-- C4 counterexample: a failed lookup (unknown email) and a failed
password comparison both return 401 but with different bodies, so the
response does disclose which of the two internal causes occurred. -/
theorem auth_failure_bodies_differ :
    authHandler "b@x.com" "pw" authUsers authPasses 0 "k" =
      AuthResp.resp 401 "401 - Unauthorized, unable to verify this login attempt" ∧
    authHandler "a@x.com" "wrong" authUsers authPasses 0 "k" =
      AuthResp.resp 401 "401 - Unauthorized, invalid login" ∧
    "401 - Unauthorized, unable to verify this login attempt" ≠
      "401 - Unauthorized, invalid login" := by
  decide

/-- C4 amended: every failed login attempt that produces a response at
all carries status 401, and its body is one of exactly two strings — one
shared by all lookup failures, the other for a wrong password — so the
status hides the cause but the body partially discloses it. -/
theorem auth_failure_status_and_bodies (email password : String)
    (users : List User) (passes : List UserPassword) (now : Int) (key : String)
    (s : Nat) (b : String)
    (h : authHandler email password users passes now key = AuthResp.resp s b) :
    s = 401 ∧
    (b = "401 - Unauthorized, unable to verify this login attempt" ∨
     b = "401 - Unauthorized, invalid login") := by
  unfold authHandler at h
  rcases hG : GetHashedPass email users passes with a | m | m <;> rw [hG] at h
  · obtain ⟨hp, user⟩ := a
    by_cases hc : bcryptCompare hp password
    · simp [hc] at h
    · simp [hc] at h
      exact ⟨h.1.symm, Or.inr h.2.symm⟩
  · simp at h
    exact ⟨h.1.symm, Or.inl h.2.symm⟩
  · simp at h

/-- C4 witness: the amended statement at the wrong-password input. -/
theorem auth_failure_status_witness :
    (401 : Nat) = 401 ∧
    ("401 - Unauthorized, invalid login" =
        "401 - Unauthorized, unable to verify this login attempt" ∨
     "401 - Unauthorized, invalid login" = "401 - Unauthorized, invalid login") :=
  auth_failure_status_and_bodies "a@x.com" "wrong" authUsers authPasses 0 "k"
    401 "401 - Unauthorized, invalid login" (by decide)

/-- C6: a token issued for (uid, email) at time `now` carries an expiry of
exactly now + 30 minutes; validating it with the same key succeeds with
those claims while the expiry has not passed, and fails with the
AuthError once the expiry has passed. -/
theorem generateJWT_roundtrip (uid : Int) (email : String)
    (now checkTime : Int) (key : String) :
    (generateJWT uid email now key).2 = now + 30 * 60 ∧
    (checkTime ≤ now + 30 * 60 →
      parseToken (generateJWT uid email now key).1 key checkTime =
        Except.ok { email := email, uid := uid, expiresAt := now + 30 * 60 }) ∧
    (now + 30 * 60 < checkTime →
      parseToken (generateJWT uid email now key).1 key checkTime =
        Except.error "failed to parse jwt/invalid token, unauthorized") := by
  refine ⟨rfl, fun h => ?_, fun h => ?_⟩
  · have h' : checkTime ≤ now + 1800 := by omega
    simp [generateJWT, parseToken, h']
  · have h' : ¬ checkTime ≤ now + 1800 := by omega
    simp [generateJWT, parseToken, h']

/-- C6 witness: the round trip at uid 5, issuance time 0, check times 10
(inside the 30 minutes) and 2000 (after expiry). -/
theorem generateJWT_roundtrip_witness :
    parseToken (generateJWT 5 "e" 0 "k").1 "k" 10 =
      Except.ok { email := "e", uid := 5, expiresAt := 0 + 30 * 60 } ∧
    parseToken (generateJWT 5 "e" 0 "k").1 "k" 2000 =
      Except.error "failed to parse jwt/invalid token, unauthorized" :=
  ⟨(generateJWT_roundtrip 5 "e" 0 10 "k").2.1 (by decide),
   (generateJWT_roundtrip 5 "e" 0 2000 "k").2.2 (by decide)⟩

/-- C10: when a cookie named token is present, authRequest validates the
cookie's token only: the outcome equals validating the cookie value, is
identical for any two Authorization headers, and any validation error of
the cookie value is returned even when the header holds a valid token. -/
theorem authRequest_cookie_precedence (cookies : List (String × TokenStr))
    (h₁ h₂ : TokenStr) (key : String) (now : Int) (c : String × TokenStr)
    (hc : cookies.find? (fun x => x.1 = "token") = some c) :
    authRequest cookies h₁ key now = parseToken c.2 key now ∧
    authRequest cookies h₁ key now = authRequest cookies h₂ key now ∧
    (∀ e, parseToken c.2 key now = Except.error e →
      authRequest cookies h₁ key now = Except.error e) := by
  unfold authRequest
  rw [hc]
  exact ⟨rfl, rfl, fun e he => he⟩

/-- C10 witness: an expired cookie token is rejected even though the
Authorization header carries a currently valid token for the same key. -/
theorem authRequest_cookie_precedence_witness :
    authRequest [("token", TokenStr.signed "e" 5 3 "k")]
        (TokenStr.signed "e" 5 1800 "k") "k" 10 =
      Except.error "failed to parse jwt/invalid token, unauthorized" :=
  (authRequest_cookie_precedence [("token", TokenStr.signed "e" 5 3 "k")]
      (TokenStr.signed "e" 5 1800 "k") (TokenStr.signed "e" 5 1800 "k") "k" 10
      ("token", TokenStr.signed "e" 5 3 "k") (by decide)).2.2
    "failed to parse jwt/invalid token, unauthorized" (by rfl)

/-- A condition list ending in the mandatory permission clause is never
the owner-only singleton. -/
lemma conds_append_perm_ne_ownerOnly (cs : List Cond) (u v : Int) :
    cs ++ [Cond.perm u] ≠ [Cond.ownerOnly v] := by
  intro h
  cases cs with
  | nil => simp at h
  | cons a t =>
      have hlen := congrArg List.length h
      simp [List.length_append] at hlen

/-- C2 counterexample: a query supplying no filter at all (one
unrecognized parameter) is claimed to scope to owner-only, but the built
predicate is the mandatory clause alone, which admits another user's
shareable record. -/
theorem imageMetaConds_unrecognized_param_counterexample :
    hasAnyFilter [("foo", ["x"])] = false ∧
    imageMetaConds 7 [("foo", ["x"])] ≠ [Cond.ownerOnly 7] ∧
    imageMetaConds 7 [("foo", ["x"])] = [Cond.perm 7] ∧
    evalConds (imageMetaConds 7 [("foo", ["x"])])
      { id := 9, uid := 8, title := "t", ref := "", size := 0,
        encoding := "image/png", shareable := true } = true := by
  decide

/-- C2 amended: outside the special case the executed predicate is the
conjunction of the supplied filters with the mandatory clause
(owner OR shareable); the predicate is owner-only exactly when the
parameter set is empty or consists solely of the page parameter (so a
query carrying only unrecognized parameters is scoped by the mandatory
clause, not owner-only); and the owner-only predicate matches precisely
the caller's own records. -/
theorem imageMetaConds_spec (uid : Int) (params : Params) :
    (¬ (params.length = 0 ∨ (params.length = 1 ∧ params.has "page" = true)) →
      imageMetaConds uid params = suppliedFilterConds params ++ [Cond.perm uid]) ∧
    (imageMetaConds uid params = [Cond.ownerOnly uid] ↔
      (params.length = 0 ∨ (params.length = 1 ∧ params.has "page" = true))) ∧
    (∀ row : Image, evalConds [Cond.ownerOnly uid] row = true ↔ row.uid = uid) := by
  by_cases hP : params.length = 0 ∨ (params.length = 1 ∧ params.has "page" = true)
  · refine ⟨fun h => absurd hP h, ?_, ?_⟩
    · constructor
      · intro _
        exact hP
      · intro _
        simp only [imageMetaConds]
        rw [if_pos hP]
    · intro row
      simp [evalConds, evalCond]
  · refine ⟨fun _ => ?_, ?_, ?_⟩
    · simp only [imageMetaConds, suppliedFilterConds]
      rw [if_neg hP]
      by_cases h1 : params.has "id" = true <;>
        by_cases h2 : params.has "uid" = true <;>
          by_cases h3 : params.has "title" = true <;>
            by_cases h4 : params.has "shareable" = true <;>
              by_cases h5 : params.has "encoding" = true <;>
                simp [h1, h2, h3, h4, h5]
    · constructor
      · intro h
        exfalso
        simp only [imageMetaConds] at h
        rw [if_neg hP] at h
        exact conds_append_perm_ne_ownerOnly _ uid uid h
      · intro h
        exact absurd h hP
    · intro row
      simp [evalConds, evalCond]

/-- C2 witness: the amended statement at a query holding one filter
(title) and at the unscoped query of the counterexample's caller. -/
theorem imageMetaConds_spec_witness :
    imageMetaConds 7 [("title", ["a"])] =
      suppliedFilterConds [("title", ["a"])] ++ [Cond.perm 7] ∧
    (evalConds [Cond.ownerOnly 7]
        { id := 9, uid := 8, title := "t", ref := "", size := 0,
          encoding := "image/png", shareable := true } = true ↔ (8 : Int) = 7) :=
  ⟨(imageMetaConds_spec 7 [("title", ["a"])]).1 (by decide),
   (imageMetaConds_spec 7 [("title", ["a"])]).2.2
     { id := 9, uid := 8, title := "t", ref := "", size := 0,
       encoding := "image/png", shareable := true }⟩

/-- 120 rows owned by user 1, with ids 0..119. -/
def table120 : List Image :=
  (List.range 120).map fun i =>
    { id := (i : Int), uid := 1, title := "t", ref := "", size := 0,
      encoding := "image/png", shareable := false }

/-- Page index, page size, total count, and slice length of a response. -/
def querySummary (r : QueryResp) : Int × Nat × Nat × Nat :=
  (r.page, r.pageSize, r.totalResults, r.imageMeta.length)

/-- A key that is absent reads back as the empty string. -/
lemma params_get_of_not_has (p : Params) (k : String) (h : p.has k = false) :
    p.get k = "" := by
  unfold Params.get
  have hf : p.find? (fun x => decide (x.1 = k)) = none := by
    rw [List.find?_eq_none]
    intro x hx
    unfold Params.has at h
    rw [List.any_eq_false] at h
    exact h x hx
  rw [hf]

/-- C7: for every query with a nonnegative parsed page index, the
response counts all rows matching the predicate (independent of
pagination) and returns the slice at LIMIT PAGE_SIZE OFFSET
page*PAGE_SIZE; a missing or malformed page parameter defaults to page 0;
and over 120 matching rows, pages 0, 1 and 2 hold 50, 50 and 20 rows with
totalResults 120 each time. -/
theorem imageMetaQuery_pagination :
    (∀ (uid : Int) (params : Params) (table : List Image),
        0 ≤ pageOf params →
        imageMetaQuery uid params table =
          Except.ok
            { page := pageOf params, pageSize := PAGE_SIZE,
              totalResults :=
                (table.filter (evalConds (imageMetaConds uid params))).length,
              imageMeta :=
                ((table.filter (evalConds (imageMetaConds uid params))).drop
                  (pageOf params * (PAGE_SIZE : Int)).toNat).take PAGE_SIZE }) ∧
    (∀ params : Params, params.has "page" = false → pageOf params = 0) ∧
    (∀ params : Params, goAtoi (params.get "page") = none → pageOf params = 0) ∧
    (imageMetaQuery 1 [("page", ["0"])] table120).map querySummary =
      Except.ok (0, 50, 120, 50) ∧
    (imageMetaQuery 1 [("page", ["1"])] table120).map querySummary =
      Except.ok (1, 50, 120, 50) ∧
    (imageMetaQuery 1 [("page", ["2"])] table120).map querySummary =
      Except.ok (2, 50, 120, 20) := by
  refine ⟨?_, ?_, ?_, rfl, rfl, rfl⟩
  · intro uid params table h
    have hoff : ¬ (pageOf params * (PAGE_SIZE : Int) < 0) :=
      not_lt.mpr (mul_nonneg h (by norm_num))
    simp only [imageMetaQuery, selectLimitOffset]
    rw [if_neg hoff]
  · intro params h
    rw [pageOf, params_get_of_not_has params "page" h]
    rfl
  · intro params h
    rw [pageOf, h]

/-- C7 witness: the universal part at caller 1, page 2, over the 120-row
table, and the page default at the parameter-free query. -/
theorem imageMetaQuery_pagination_witness :
    imageMetaQuery 1 [("page", ["2"])] table120 =
      Except.ok
        { page := pageOf [("page", ["2"])], pageSize := PAGE_SIZE,
          totalResults :=
            (table120.filter
              (evalConds (imageMetaConds 1 [("page", ["2"])]))).length,
          imageMeta :=
            ((table120.filter
              (evalConds (imageMetaConds 1 [("page", ["2"])]))).drop
                (pageOf [("page", ["2"])] * (PAGE_SIZE : Int)).toNat).take
              PAGE_SIZE } ∧
    pageOf [] = 0 :=
  ⟨imageMetaQuery_pagination.1 1 [("page", ["2"])] table120 (by decide),
   imageMetaQuery_pagination.2.1 [] (by decide)⟩

/-- Filtering a fresh id out of a table with one appended row of that id
restores the original table. -/
lemma filter_ne_append_single (rows : List Image) (img : Image) (i : Int)
    (hfresh : ∀ r ∈ rows, r.id ≠ i) (himg : img.id = i) :
    (rows ++ [img]).filter (fun r : Image => r.id ≠ i) = rows := by
  rw [List.filter_append]
  have h1 : rows.filter (fun r : Image => r.id ≠ i) = rows := by
    apply List.filter_eq_self.mpr
    intro r hr
    simpa using hfresh r hr
  have h2 : [img].filter (fun r : Image => r.id ≠ i) = ([] : List Image) := by
    simp [himg]
  rw [h1, h2, List.append_nil]

/-- Updating the row at a fresh id rewrites exactly the appended row. -/
lemma map_update_append_single (rows : List Image) (img img2 : Image) (i : Int)
    (hfresh : ∀ r ∈ rows, r.id ≠ i) (himg : img.id = i) :
    (rows ++ [img]).map (fun r : Image => if r.id = i then img2 else r) =
      rows ++ [img2] := by
  rw [List.map_append]
  congr 1
  · have : ∀ r ∈ rows, (if r.id = i then img2 else r) = r := by
      intro r hr
      rw [if_neg (hfresh r hr)]
    calc rows.map (fun r : Image => if r.id = i then img2 else r)
        = rows.map id := List.map_congr_left this
      _ = rows := List.map_id rows
  · simp [himg]

/-- A 10-byte PNG-signature-prefixed payload. -/
def pngBytes : List Nat := pngSig ++ [0, 0]

/-- An upload of that payload titled a.bin with shareable=true. -/
def pngReq : UploadReq :=
  { contentType := "multipart/form-data; boundary=x", filename := "a.bin",
    titleField := "a.bin", shareableField := "true", bytes := pngBytes }

/-- An empty server store. -/
def st0 : ServerState := { nextId := 1, rows := [], blobs := [] }

/-- All external calls succeed. -/
def ioAllOk : UploadIOOutcome :=
  { insertOk := true, updateOk := true, createOk := true, copyOk := true }

/-- The reference-update step fails. -/
def ioUpdateFails : UploadIOOutcome :=
  { insertOk := true, updateOk := false, createOk := true, copyOk := true }

/-- The record stored by the successful witness upload. -/
def pngImg : Image :=
  { id := 1, uid := 1, title := "a.png", ref := "localhost:8000/image/1/1.png",
    size := 10, encoding := "image/png", shareable := true }

/-- The server state after the successful witness upload. -/
def stAfterUpload : ServerState :=
  { nextId := 2, rows := [pngImg], blobs := [(("1", "1.png"), pngBytes)] }

/-- C5: whenever an upload passes validation and the insert but then the
reference update, the blob create, or the blob copy fails, the metadata
row inserted for it is deleted again — the table is exactly its pre-upload
value — and the handler answers 500. -/
theorem addImage_rolls_back (uid : Int) (req : UploadReq) (st : ServerState)
    (io : UploadIOOutcome) (refUrl : String)
    (hfresh : ∀ r ∈ st.rows, r.id ≠ st.nextId)
    (hbytes : req.bytes.length ≠ 0)
    (hct : goContains req.contentType "multipart/form-data" = true)
    (hft : detectContentType (sniffBuffer req.bytes) = "image/jpeg" ∨
      detectContentType (sniffBuffer req.bytes) = "image/png")
    (hins : io.insertOk = true)
    (hfail : io.updateOk = false ∨ io.createOk = false ∨ io.copyOk = false) :
    (addImage uid req st io refUrl).2.rows = st.rows ∧
    ∃ body, (addImage uid req st io refUrl).1 = AddImageResp.resp 500 body := by
  have hmime : goContains req.contentType "multipart/form-data" = true ∧
      (detectContentType (sniffBuffer req.bytes) = "image/jpeg" ∨
       detectContentType (sniffBuffer req.bytes) = "image/png") := ⟨hct, hft⟩
  simp only [addImage]
  rw [if_neg hbytes, if_neg (not_not_intro hmime), if_neg (not_not_intro hins)]
  cases hu : io.updateOk with
  | false =>
      rw [if_pos (show ¬false = true by decide)]
      exact ⟨filter_ne_append_single st.rows _ st.nextId hfresh rfl, _, rfl⟩
  | true =>
      rw [if_neg (show ¬¬true = true by decide)]
      cases hcr : io.createOk with
      | false =>
          rw [if_pos (show ¬false = true by decide)]
          refine ⟨?_, _, rfl⟩
          rw [map_update_append_single st.rows _ _ st.nextId hfresh rfl]
          exact filter_ne_append_single st.rows _ st.nextId hfresh rfl
      | true =>
          rw [if_neg (show ¬¬true = true by decide)]
          have hcp : io.copyOk = false := by
            rcases hfail with h | h | h
            · rw [h] at hu
              exact absurd hu (by decide)
            · rw [h] at hcr
              exact absurd hcr (by decide)
            · exact h
          rw [if_pos (by rw [hcp]; exact Bool.false_ne_true)]
          refine ⟨?_, _, rfl⟩
          rw [map_update_append_single st.rows _ _ st.nextId hfresh rfl]
          exact filter_ne_append_single st.rows _ st.nextId hfresh rfl

/-- C5 witness: the rollback at a concrete upload whose reference-update
step fails against the empty store. -/
theorem addImage_rolls_back_witness :
    (addImage 1 pngReq st0 ioUpdateFails "localhost:8000").2.rows = st0.rows ∧
    ∃ body, (addImage 1 pngReq st0 ioUpdateFails "localhost:8000").1 =
      AddImageResp.resp 500 body :=
  addImage_rolls_back 1 pngReq st0 ioUpdateFails "localhost:8000"
    (by intro r hr; simp [st0] at hr) (by decide) (by decide)
    (Or.inr (by decide)) (by decide) (Or.inl (by decide))

/-- An upload carrying a completely empty byte stream. -/
def emptyReq : UploadReq :=
  { contentType := "multipart/form-data; boundary=x", filename := "a.png",
    titleField := "", shareableField := "", bytes := [] }

/-- An upload whose bytes match neither image signature. -/
def octetReq : UploadReq :=
  { contentType := "multipart/form-data; boundary=x", filename := "a.txt",
    titleField := "", shareableField := "", bytes := [1, 2, 3] }

/-- C8 counterexample: an empty-stream upload has a detected type that
is neither image/jpeg nor image/png, so the claim demands a
ValidationError (status 400) rejection; the code instead rejects it in
the read-error branch with status 500 (its body merely worded as a 400
message). -/
theorem addImage_empty_stream_counterexample :
    detectContentType (sniffBuffer emptyReq.bytes) ≠ "image/jpeg" ∧
    detectContentType (sniffBuffer emptyReq.bytes) ≠ "image/png" ∧
    addImage 1 emptyReq st0 ioAllOk "localhost:8000" =
      (AddImageResp.resp 500
        "400 - Failed to validate file type, ensure the file is correctly formatted as a jpeg (jpg) or png",
       st0) ∧
    (500 : Nat) ≠ 400 := by
  decide

/-- C8 amended: a successful upload stores as encoding exactly the type
detected from the sniffed 512-byte prefix (a function of the stream
bytes alone — never of the declared filename or Content-Type), that type
is image/jpeg or image/png, the reference ends in the extension derived
from it, and the blob holds the full rewound stream; when the detected
type is neither image/jpeg nor image/png, a nonempty stream is rejected
with the 400 ValidationError response, while a completely empty stream
is rejected in the read-error branch with status 500 carrying the
400-worded validation body. -/
theorem addImage_content_sniff (uid : Int) (req : UploadReq)
    (st : ServerState) (io : UploadIOOutcome) (refUrl : String) :
    (∀ (img : Image) (st' : ServerState),
        addImage uid req st io refUrl = (AddImageResp.ok img, st') →
        img.encoding = detectContentType (sniffBuffer req.bytes) ∧
        (img.encoding = "image/jpeg" ∨ img.encoding = "image/png") ∧
        img.ref = refUrl ++ "/" ++ IMAGE_DIR ++ "/" ++ toString uid ++ "/" ++
          toString img.id ++ "." ++ goSplitSecond img.encoding ∧
        ((toString uid, toString img.id ++ "." ++
            goSplitSecond img.encoding), req.bytes) ∈ st'.blobs) ∧
    (req.bytes ≠ [] →
      ¬ (detectContentType (sniffBuffer req.bytes) = "image/jpeg" ∨
         detectContentType (sniffBuffer req.bytes) = "image/png") →
      addImage uid req st io refUrl =
        (AddImageResp.resp 400
          "400 - Failed to upload, please use multipart form data with an image of type jpeg (jpg) or png",
         st)) ∧
    (req.bytes = [] →
      addImage uid req st io refUrl =
        (AddImageResp.resp 500
          "400 - Failed to validate file type, ensure the file is correctly formatted as a jpeg (jpg) or png",
         st)) := by
  refine ⟨?_, ?_, ?_⟩
  · intro img st' h
    simp only [addImage] at h
    split_ifs at h with hb hmime hins hupd hcre hcpy <;>
      simp only [Prod.mk.injEq] at h
    all_goals try exact absurd h.1 (fun hx => AddImageResp.noConfusion hx)
    obtain ⟨h1, h2⟩ := h
    injection h1 with himg
    subst himg
    subst h2
    refine ⟨rfl, hmime.2, rfl, ?_⟩
    exact List.mem_append_right _ (List.mem_singleton.mpr rfl)
  · intro hne hnot
    have hlen : ¬ (req.bytes.length = 0) :=
      fun h => hne (List.length_eq_zero.mp h)
    simp only [addImage]
    rw [if_neg hlen,
      if_pos (fun hc : goContains req.contentType "multipart/form-data" = true ∧
        (detectContentType (sniffBuffer req.bytes) = "image/jpeg" ∨
         detectContentType (sniffBuffer req.bytes) = "image/png") => hnot hc.2)]
  · intro he
    have hlen : req.bytes.length = 0 := by rw [he]; rfl
    simp only [addImage]
    rw [if_pos hlen]

/-- C8 witness: the 10-byte PNG-prefixed upload titled a.bin stores
encoding image/png, a .png reference, and the identical bytes, while a
nonempty upload matching neither signature is rejected with the 400
response. -/
theorem addImage_content_sniff_witness :
    (pngImg.encoding = detectContentType (sniffBuffer pngReq.bytes) ∧
     (pngImg.encoding = "image/jpeg" ∨ pngImg.encoding = "image/png") ∧
     pngImg.ref = "localhost:8000" ++ "/" ++ IMAGE_DIR ++ "/" ++
       toString (1 : Int) ++ "/" ++ toString pngImg.id ++ "." ++
       goSplitSecond pngImg.encoding ∧
     ((toString (1 : Int), toString pngImg.id ++ "." ++
         goSplitSecond pngImg.encoding), pngReq.bytes) ∈
       stAfterUpload.blobs) ∧
    addImage 1 octetReq st0 ioAllOk "localhost:8000" =
      (AddImageResp.resp 400
        "400 - Failed to upload, please use multipart form data with an image of type jpeg (jpg) or png",
       st0) :=
  ⟨(addImage_content_sniff 1 pngReq st0 ioAllOk "localhost:8000").1 pngImg
      stAfterUpload (by decide),
   (addImage_content_sniff 1 octetReq st0 ioAllOk "localhost:8000").2.1
     (by decide) (by decide)⟩

/-- C9: a successful upload stores shareable=true exactly when the
shareable form field is the string "true"; a metadata update changes the
stored flag to true on the JSON string "true", to false on "false", and
leaves it untouched on any other supplied value or when absent. -/
theorem shareable_flag_semantics :
    (∀ (uid : Int) (req : UploadReq) (st : ServerState) (io : UploadIOOutcome)
        (refUrl : String) (img : Image) (st' : ServerState),
        addImage uid req st io refUrl = (AddImageResp.ok img, st') →
        (img.shareable = true ↔ req.shareableField = "true")) ∧
    (∀ (meta : Image) (ps : List (String × String)),
        (jsonLookup ps "shareable" = some "true" →
          (applyUpdateParams meta ps).shareable = true) ∧
        (jsonLookup ps "shareable" = some "false" →
          (applyUpdateParams meta ps).shareable = false) ∧
        (∀ v, jsonLookup ps "shareable" = some v → v ≠ "true" → v ≠ "false" →
          (applyUpdateParams meta ps).shareable = meta.shareable) ∧
        (jsonLookup ps "shareable" = none →
          (applyUpdateParams meta ps).shareable = meta.shareable)) := by
  constructor
  · intro uid req st io refUrl img st' h
    simp only [addImage] at h
    split_ifs at h with hb hmime hins hupd hcre hcpy <;>
      simp only [Prod.mk.injEq] at h
    all_goals try exact absurd h.1 (fun hx => AddImageResp.noConfusion hx)
    obtain ⟨h1, h2⟩ := h
    injection h1 with himg
    subst himg
    exact decide_eq_true_iff
  · intro meta ps
    have hsh : ∀ m : Image, ∀ b : Bool, ({ m with shareable := b } : Image).shareable = b :=
      fun m b => rfl
    have hmeta1 : ∀ t : Option String,
        (match t with
          | some title =>
              if title.length > 0 then
                { meta with title := beforeFirstDot title ++ "." ++
                    goSplitSecond meta.encoding }
              else meta
          | none => meta).shareable = meta.shareable := by
      intro t
      cases t with
      | some title =>
          by_cases ht : title.length > 0 <;> simp [ht]
      | none => rfl
    refine ⟨fun h => ?_, fun h => ?_, fun v h hv1 hv2 => ?_, fun h => ?_⟩ <;>
      simp only [applyUpdateParams, h]
    · rfl
    · rfl
    · rw [if_neg hv1, if_neg hv2]
      exact hmeta1 (jsonLookup ps "title")
    · exact hmeta1 (jsonLookup ps "title")

/-- C9 witness: the concrete shareable=true upload, and a metadata update
that supplies "false" flips the flag while one supplying "maybe" does
not. -/
theorem shareable_flag_semantics_witness :
    (pngImg.shareable = true ↔ pngReq.shareableField = "true") ∧
    (applyUpdateParams pngImg [("shareable", "false")]).shareable = false ∧
    (applyUpdateParams pngImg [("shareable", "maybe")]).shareable =
      pngImg.shareable :=
  ⟨shareable_flag_semantics.1 1 pngReq st0 ioAllOk "localhost:8000" pngImg
      stAfterUpload (by decide),
   (shareable_flag_semantics.2 pngImg [("shareable", "false")]).2.1 rfl,
   (shareable_flag_semantics.2 pngImg [("shareable", "maybe")]).2.2.1 "maybe"
     rfl (by decide) (by decide)⟩

end Picto
